import Mathlib

set_option maxRecDepth 8000

/-- Characters of a string literal, used to write Python string constants. -/
def lchars (s : String) : List Char := s.toList

/-- Model of Python indexing data[i] on a sequence: negative indices count from
the end, an out-of-range index raises IndexError (modelled as error). -/
def pyIndex {α : Type} (data : List α) (i : Int) : Except Unit α :=
  let j : Int := if i < 0 then (data.length : Int) + i else i
  if j < 0 then .error () else
    match data.drop j.toNat with
    | [] => .error ()
    | c :: _ => .ok c

/-- Position of the first CRLF pair in a list of characters, if any. -/
def crlfPos : List Char → Option Nat
  | [] => none
  | [_] => none
  | c1 :: c2 :: rest =>
    if c1 = '\r' ∧ c2 = '\n' then some 0
    else (crlfPos (c2 :: rest)).map (fun k => k + 1)

/-- Model of the Python call data.find of the two-character substring CRLF from
a start position: the lowest index at or after start where CRLF occurs, or -1
when it does not occur. -/
def pyFind (data : List Char) (start : Int) : Int :=
  let s0 : Nat := if start < 0 then ((data.length : Int) + start).toNat else start.toNat
  match crlfPos (data.drop s0) with
  | some k => ((s0 + k : Nat) : Int)
  | none => -1

/-- Clamp one endpoint of a Python slice to the length of the sequence. -/
def sliceIdx (n : Nat) (i : Int) : Nat :=
  if i < 0 then ((n : Int) + i).toNat else min i.toNat n

/-- Model of the Python slice data[a:b] with step one. -/
def pySlice (data : List Char) (a b : Int) : List Char :=
  (data.take (sliceIdx data.length b)).drop (sliceIdx data.length a)

/-- Numeric value of a list of decimal digit characters. -/
def digitsVal (ds : List Char) : Nat :=
  ds.foldl (fun acc c => 10 * acc + (c.toNat - 48)) 0

/-- Model of the Python int() constructor on the ASCII decimal strings the
decoder passes to it: an optional single sign followed by one or more decimal
digits; anything else raises ValueError (modelled as error). -/
def pyInt (s : List Char) : Except Unit Int :=
  if s = [] then .error ()
  else if s.head? = some '-' then
    (if s.tail ≠ [] ∧ s.tail.all Char.isDigit then .ok (-(digitsVal s.tail : Int)) else .error ())
  else if s.head? = some '+' then
    (if s.tail ≠ [] ∧ s.tail.all Char.isDigit then .ok ((digitsVal s.tail : Int)) else .error ())
  else if s.all Char.isDigit then .ok ((digitsVal s : Int)) else .error ()

/-- Auxiliary for natDigits, structurally recursive on a fuel argument that is
always sufficient at its call site. -/
def natDigitsAux : Nat → Nat → List Char
  | 0, n => [Char.ofNat (48 + n % 10)]
  | fuel + 1, n =>
    if n < 10 then [Char.ofNat (48 + n)]
    else natDigitsAux fuel (n / 10) ++ [Char.ofNat (48 + n % 10)]

/-- Decimal digit characters of a natural number, as produced by Python str(). -/
def natDigits (n : Nat) : List Char := natDigitsAux n n

/-- Decimal representation of an integer, as produced by Python str(). -/
def intChars (n : Int) : List Char :=
  if n < 0 then '-' :: natDigits n.natAbs else natDigits n.toNat

/-- Continuation byte test for UTF-8. -/
def isCont (b : Nat) : Bool := 128 ≤ b ∧ b ≤ 191

/-- Allowed range of the first continuation byte of a three-byte UTF-8
sequence, which depends on the leading byte. -/
def cont3ok (b b2 : Nat) : Bool :=
  if b = 224 then 160 ≤ b2 ∧ b2 ≤ 191
  else if b = 237 then 128 ≤ b2 ∧ b2 ≤ 159
  else isCont b2

/-- Allowed range of the first continuation byte of a four-byte UTF-8 sequence. -/
def cont4ok (b b2 : Nat) : Bool :=
  if b = 240 then 144 ≤ b2 ∧ b2 ≤ 191
  else if b = 244 then 128 ≤ b2 ∧ b2 ≤ 143
  else isCont b2

/-- Model of Python bytes.decode() with strict error handling: none on
ill-formed input (a UnicodeDecodeError). -/
def utf8Strict : List Nat → Option (List Char)
  | [] => some []
  | b :: rest =>
    if b < 128 then (utf8Strict rest).map (fun cs => Char.ofNat b :: cs)
    else if 194 ≤ b ∧ b ≤ 223 then
      match rest with
      | b2 :: r2 =>
        if isCont b2 then
          (utf8Strict r2).map (fun cs => Char.ofNat ((b - 192) * 64 + (b2 - 128)) :: cs)
        else none
      | [] => none
    else if 224 ≤ b ∧ b ≤ 239 then
      match rest with
      | b2 :: b3 :: r3 =>
        if cont3ok b b2 ∧ isCont b3 then
          (utf8Strict r3).map (fun cs =>
            Char.ofNat ((b - 224) * 4096 + (b2 - 128) * 64 + (b3 - 128)) :: cs)
        else none
      | _ => none
    else if 240 ≤ b ∧ b ≤ 244 then
      match rest with
      | b2 :: b3 :: b4 :: r4 =>
        if cont4ok b b2 ∧ isCont b3 ∧ isCont b4 then
          (utf8Strict r4).map (fun cs =>
            Char.ofNat ((b - 240) * 262144 + (b2 - 128) * 4096 + (b3 - 128) * 64 + (b4 - 128)) :: cs)
        else none
      | _ => none
    else none

/-- Model of Python bytes.decode() with errors ignore: each maximal ill-formed
subpart is skipped. -/
def utf8Ignore : List Nat → List Char
  | [] => []
  | b :: rest =>
    let skipOne := utf8Ignore rest
    if b < 128 then Char.ofNat b :: utf8Ignore rest
    else if 194 ≤ b ∧ b ≤ 223 then
      match rest with
      | b2 :: r2 =>
        if isCont b2 then Char.ofNat ((b - 192) * 64 + (b2 - 128)) :: utf8Ignore r2
        else skipOne
      | [] => []
    else if 224 ≤ b ∧ b ≤ 239 then
      match rest with
      | b2 :: r2 =>
        let skipTwo := utf8Ignore r2
        if cont3ok b b2 then
          match r2 with
          | b3 :: r3 =>
            if isCont b3 then
              Char.ofNat ((b - 224) * 4096 + (b2 - 128) * 64 + (b3 - 128)) :: utf8Ignore r3
            else skipTwo
          | [] => []
        else skipOne
      | [] => []
    else if 240 ≤ b ∧ b ≤ 244 then
      match rest with
      | b2 :: r2 =>
        let skipTwo := utf8Ignore r2
        if cont4ok b b2 then
          match r2 with
          | b3 :: r3 =>
            let skipThree := utf8Ignore r3
            if isCont b3 then
              match r3 with
              | b4 :: r4 =>
                if isCont b4 then
                  Char.ofNat
                      ((b - 240) * 262144 + (b2 - 128) * 4096 + (b3 - 128) * 64 + (b4 - 128)) ::
                    utf8Ignore r4
                else skipThree
              | [] => []
            else skipTwo
          | [] => []
        else skipOne
      | [] => []
    else utf8Ignore rest

/-- UTF-8 bytes of one character, modelling Python str.encode() per character. -/
def utf8EncodeChar (c : Char) : List Nat :=
  let n := c.toNat
  if n < 128 then [n]
  else if n < 2048 then [192 + n / 64, 128 + n % 64]
  else if n < 65536 then [224 + n / 4096, 128 + n / 64 % 64, 128 + n % 64]
  else [240 + n / 262144, 128 + n / 4096 % 64, 128 + n / 64 % 64, 128 + n % 64]

/-- Model of Python str.encode() into UTF-8 bytes. -/
def utf8Encode (s : List Char) : List Nat := (s.map utf8EncodeChar).flatten

/-- The dynamic values the Python codec passes around: str, Exception, int,
None, bytes and list. -/
inductive PyVal where
  | str (s : List Char)
  | exc (s : List Char)
  | int (n : Int)
  | none
  | bytes (b : List Nat)
  | list (l : List PyVal)

mutual
/-- Model of encode_resp from the source. A Python str becomes a bulk string; an
Exception an error frame; an int an integer frame; None the null bulk; bytes a
bulk header followed by the UTF-8-ignore decoding of the bytes with no trailing
CRLF; a list an array header followed by the joined element encodings. -/
def encode_resp : PyVal → List Char
  | .str s => '$' :: (natDigits s.length ++ ('\r' :: '\n' :: (s ++ ['\r', '\n'])))
  | .exc s => '-' :: (s ++ ['\r', '\n'])
  | .int n => ':' :: (intChars n ++ ['\r', '\n'])
  | .none => ['$', '-', '1', '\r', '\n']
  | .bytes b => '$' :: (natDigits b.length ++ ('\r' :: '\n' :: utf8Ignore b))
  | .list l => '*' :: (natDigits l.length ++ ('\r' :: '\n' :: encodeList l))

/-- The join of the encodings of the elements of a list, as in the array branch
of encode_resp. -/
def encodeList : List PyVal → List Char
  | [] => []
  | v :: vs => encode_resp v ++ encodeList vs
end

/-- The element loop of the array branch of decode_resp: decode count elements
starting at the given index, accumulating them in order. The element decoder is
passed as a function (the recursive call, one fuel level down). -/
def decode_loop (dec : List Char → Int → Except Unit (PyVal × Int)) (data : List Char) :
    Nat → List PyVal → Int → Except Unit (PyVal × Int)
  | 0, elements, current_index => .ok (.list elements, current_index)
  | count + 1, elements, current_index =>
    match dec data current_index with
    | .error e => .error e
    | .ok (element, next_index) => decode_loop dec data count (elements ++ [element]) next_index

/-- Model of decode_resp from the source: decode one RESP frame from data at
start_index, returning the value and the index one past its last consumed byte.
The fuel bounds nesting depth, standing in for the Python recursion limit;
every concrete statement fixes a sufficient fuel. All Python exceptions
(IndexError, ValueError on int(), the unknown-type ValueError, recursion
overflow) are modelled as error. -/
def decode_resp : Nat → List Char → Int → Except Unit (PyVal × Int)
  | 0, _, _ => .error ()
  | fuel + 1, data, start_index =>
    match pyIndex data start_index with
    | .error e => .error e
    | .ok data_type =>
      let end_index := pyFind data start_index
      let content := pySlice data (start_index + 1) end_index
      if data_type = '+' then .ok (.str content, end_index + 2)
      else if data_type = '-' then .ok (.exc content, end_index + 2)
      else if data_type = ':' then
        match pyInt content with
        | .error e => .error e
        | .ok n => .ok (.int n, end_index + 2)
      else if data_type = '$' then
        match pyInt content with
        | .error e => .error e
        | .ok len0 =>
          if len0 = -1 then .ok (PyVal.none, end_index + 2)
          else
            let start_of_content := end_index + 2
            let end_of_content := start_of_content + len0
            .ok (.str (pySlice data start_of_content end_of_content), end_of_content + 2)
      else if data_type = '*' then
        match pyInt content with
        | .error e => .error e
        | .ok count => decode_loop (decode_resp fuel) data count.toNat [] (end_index + 2)
      else .error ()

/-- Value record stored in the database: a payload and an expiry timestamp that
is an int for every stored record and None only in the not_found sentinel. -/
structure ValueItem where
  value : PyVal
  expiry_timestamp : Option Int

/-- The missing-key sentinel ValueItem(None, None) from the source. -/
def not_found : ValueItem := ValueItem.mk PyVal.none Option.none

/-- The MAX_32BIT_TIMESTAMP constant from the source, in milliseconds. -/
def MAX_32BIT_TIMESTAMP : Int := (2 ^ 31 - 1) * 1000

/-- Equality test between two Python dict keys as the store uses it. Lists are
unhashable and are rejected before any dict operation; Exception objects
compare by identity and two decoded Exceptions are distinct objects, so they
compare unequal here. -/
def pvKeyEq (a b : PyVal) : Bool :=
  match a, b with
  | .str x, .str y => x = y
  | .int x, .int y => x = y
  | PyVal.none, PyVal.none => true
  | .bytes x, .bytes y => x = y
  | _, _ => false

/-- Hashability test: a Python dict operation on a list key raises TypeError. -/
def hashable : PyVal → Bool
  | .list _ => false
  | _ => true

/-- The shared key-value store, a Python dict keyed by decoded values. -/
def Store := PyVal → Option ValueItem

/-- The empty store. -/
def emptyStore : Store := fun _ => Option.none

/-- Python dict lookup database.get(key). -/
def storeGet (db : Store) (k : PyVal) : Option ValueItem := db k

/-- Python dict assignment database[key] = item. -/
def storeSet (db : Store) (k : PyVal) (item : ValueItem) : Store :=
  fun q => if pvKeyEq q k then some item else db q

/-- Python deletion del database[key]. -/
def storeDel (db : Store) (k : PyVal) : Store :=
  fun q => if pvKeyEq q k then Option.none else db q

/-- Model of the Python subscript value[i] on decoded values: a list indexes
into its elements, a str into its characters (giving a one-character str);
any other receiver raises TypeError and out-of-range raises IndexError. -/
def pySubscript (v : PyVal) (i : Int) : Except Unit PyVal :=
  match v with
  | .list l => pyIndex l i
  | .str s => (pyIndex s i).map (fun c => .str [c])
  | _ => .error ()

/-- Model of Python len() on decoded values. -/
def pyLen : PyVal → Except Unit Int
  | .str s => .ok (s.length : Int)
  | .list l => .ok (l.length : Int)
  | .bytes b => .ok (b.length : Int)
  | _ => .error ()

/-- Model of the Python int() constructor applied to a decoded element: strs
parse as decimal, ints pass through, everything else raises. -/
def pyIntOf : PyVal → Except Unit Int
  | .str s => pyInt s
  | .int n => .ok n
  | _ => .error ()

/-- Python equality comparison between a str literal and a decoded value: true
exactly when the value is an equal str (comparisons across types are False). -/
def pvEqStr (s : List Char) (v : PyVal) : Bool :=
  match v with
  | .str t => s = t
  | _ => false

/-- Model of the Python call value.lower() on a decoded value: defined on strs
(the command names are ASCII); any other receiver raises AttributeError. -/
def pyLower : PyVal → Except Unit (List Char)
  | .str s => .ok (s.map Char.toLower)
  | _ => .error ()

/-- Model of handle_ping from the source. -/
def handle_ping : List Char := encode_resp (.str (lchars ("PONG")))

/-- Model of handle_echo from the source. -/
def handle_echo (data_decoded : PyVal) : Except Unit (List Char) :=
  (pySubscript data_decoded 1).map encode_resp

/-- Model of handle_replconf from the source. -/
def handle_replconf : List Char := encode_resp (.str (lchars ("OK")))

/-- Model of replicate from the source: send each message, UTF-8 encoded, to
the socket; the result lists the (socket, bytes) writes in order. -/
def replicate (messages : List (List Char)) (sock : Nat) : List (Nat × List Nat) :=
  messages.map (fun message => (sock, utf8Encode message))

/-- Model of handle_set from the source. The first component is the sequence of
replica-socket writes, which the source performs first inside the critical
section and which therefore happen even if a later subscript raises; the second
component is the updated store and the reply, or an error when an exception
escapes (the connection then closes). The whole body runs under database_lock. -/
def handle_set (data_decoded : PyVal) (replica_sockets : List Nat) (database : Store)
    (timestamp : Int) (data : List Char) :
    List (Nat × List Nat) × Except Unit (Store × List Char) :=
  ((replica_sockets.map (replicate [data])).flatten,
    do
      let key ← pySubscript data_decoded 1
      let value ← pySubscript data_decoded 2
      let count ← pyLen data_decoded
      let expiry_timestamp ←
        if count = 5 then do
          let opt ← pySubscript data_decoded 3
          if pvEqStr (lchars ("px")) opt then do
            let ms ← pyIntOf (← pySubscript data_decoded 4)
            pure (ms + timestamp)
          else pure MAX_32BIT_TIMESTAMP
        else pure MAX_32BIT_TIMESTAMP
      if hashable key then
        pure (storeSet database key (ValueItem.mk value (some expiry_timestamp)),
          encode_resp (.str (lchars ("OK"))))
      else .error ())

/-- Model of handle_get from the source: look the key up with the not_found
default; a non-None expiry at or before the timestamp deletes the record and
answers as for a missing key; the reply encodes the (possibly None) payload.
Runs under database_lock. -/
def handle_get (data_decoded : PyVal) (database : Store) (timestamp : Int) :
    Except Unit (Store × List Char) := do
  let key ← pySubscript data_decoded 1
  if hashable key then
    let value_item := (storeGet database key).getD not_found
    match value_item.expiry_timestamp with
    | some exp =>
      if exp ≤ timestamp then pure (storeDel database key, encode_resp not_found.value)
      else pure (database, encode_resp value_item.value)
    | Option.none => pure (database, encode_resp value_item.value)
  else .error ()

/-- Replication info record from the source (the fields serialize_dataclass
emits). -/
structure ReplicationInfo where
  role : List Char
  master_replid : List Char
  master_repl_offset : Int

/-- Python newline join, as in the join inside handle_info. -/
def joinNL : List (List Char) → List Char
  | [] => []
  | [x] => x
  | x :: xs => x ++ '\n' :: joinNL xs

/-- Model of serialize_dataclass applied to ReplicationInfo. -/
def serialize_dataclass (r : ReplicationInfo) : List (List Char) :=
  [lchars ("role:") ++ r.role,
   lchars ("master_replid:") ++ r.master_replid,
   lchars ("master_repl_offset:") ++ intChars r.master_repl_offset]

/-- Model of handle_info from the source. -/
def handle_info (replication_info : ReplicationInfo) : List Char :=
  encode_resp (.str (joinNL (serialize_dataclass replication_info)))

/-- The hexadecimal EMPTY_RDB constant from the source. -/
def EMPTY_RDB : List Char := lchars
  ("524544495330303131fa0972656469732d76657205372e322e30fa0a72656469732d62697473c040fa056374696d65c26d08bc65fa08757365642d6d656dc2b0c41000fa08616f662d62617365c000fff06e3bfec0ff5aa2")

/-- Value of one hexadecimal digit character. -/
def hexVal (c : Char) : Option Nat :=
  if c.isDigit then some (c.toNat - 48)
  else if 'a' ≤ c ∧ c ≤ 'f' then some (c.toNat - 87)
  else if 'A' ≤ c ∧ c ≤ 'F' then some (c.toNat - 55)
  else Option.none

/-- Model of bytes.fromhex: pairs of hexadecimal digits to bytes, none on
malformed input (ValueError); spaces between pairs are skipped as in Python. -/
def fromhex : List Char → Option (List Nat)
  | [] => some []
  | ' ' :: rest => fromhex rest
  | c1 :: c2 :: rest =>
    match hexVal c1, hexVal c2 with
    | some h, some l => (fromhex rest).map (fun bs => (16 * h + l) :: bs)
    | _, _ => Option.none
  | _ => Option.none

/-- One part of a multi-part reply: handle_psync returns a Python list holding
a str and a raw bytes object. -/
inductive RPart where
  | str (s : List Char)
  | bytes (b : List Nat)

/-- The value a handler leaves in the response variable of the client loop:
None, a single str, or the multi-part list from handle_psync. -/
inductive PyResp where
  | noneVal
  | single (s : List Char)
  | multi (parts : List RPart)

/-- Model of handle_psync from the source: on replid ? generate a fresh
replication id (the random_str call is modelled by the new_replication_id
parameter), register the client socket as a replica and return the two reply
parts, the FULLRESYNC line and the length-headed snapshot bytes with no
trailing CRLF; on any other replid return None. -/
def handle_psync (data_decoded : PyVal) (client_socket : Nat) (replica_sockets : List Nat)
    (new_replication_id : List Char) : Except Unit (PyResp × List Nat) := do
  let replication_id ← pySubscript data_decoded 1
  if pvEqStr (lchars ("?")) replication_id then
    match fromhex EMPTY_RDB with
    | Option.none => .error ()
    | some rdb_bytes =>
      let response := lchars ("FULLRESYNC ") ++ new_replication_id ++ lchars (" 0")
      pure (.multi [RPart.str (encode_resp (.str response)),
          RPart.bytes (utf8Encode ('$' :: (natDigits rdb_bytes.length ++ ['\r', '\n'])) ++
            rdb_bytes)],
        replica_sockets ++ [client_socket])
  else pure (.noneVal, replica_sockets)

/-- Per-connection state of the handle_client loop: the shared store, the
shared replica-socket list, the loop-local response variable (none when never
assigned, in which case reading it raises NameError) and the
keep_client_socket_open flag. -/
structure ConnState where
  database : Store
  replica_sockets : List Nat
  response : Option PyResp
  keep_open : Bool

/-- Result of one iteration of the handle_client loop: the state afterwards,
the byte chunks written to the client socket, the writes to replica sockets,
and whether the loop breaks (an exception was caught). -/
structure StepResult where
  state : ConnState
  clientSent : List (List Nat)
  replicaSent : List (Nat × List Nat)
  breaks : Bool

/-- Bytes written for a response value when it tests truthy: a nonempty str is
sent UTF-8 encoded; a nonempty list sends each part, strs encoded and bytes
raw; None, the empty str and the empty list are falsy and send nothing. -/
def respBytes : PyResp → List (List Nat)
  | .noneVal => []
  | .single s => if s = [] then [] else [utf8Encode s]
  | .multi parts =>
    match parts with
    | [] => []
    | _ =>
      parts.map (fun p => match p with | RPart.str s => utf8Encode s | RPart.bytes b => b)

/-- The reply-sending tail of the loop body: reading a never-assigned response
variable raises NameError and breaks the loop; otherwise the truthiness test
decides whether bytes are sent, and the loop continues. -/
def stepFinish (st : ConnState) (replicaSent : List (Nat × List Nat)) : StepResult :=
  match st.response with
  | Option.none => StepResult.mk st [] replicaSent true
  | some r => StepResult.mk st (respBytes r) replicaSent false

/-- One iteration of the handle_client loop on one received chunk, for a client
connection (send_response_back is true). decodeFuel bounds decoder recursion as
in decode_resp; the timestamp is captured once per read as in the source. Any
exception breaks the loop, and only the first frame of the chunk is ever
decoded, exactly as in the source. -/
def handle_client_step (decodeFuel : Nat) (client_socket : Nat)
    (replication_info : ReplicationInfo) (new_replication_id : List Char)
    (st : ConnState) (request : List Nat) (timestamp : Int) : StepResult :=
  match utf8Strict request with
  | Option.none => StepResult.mk st [] [] true
  | some data =>
    match decode_resp decodeFuel data 0 with
    | .error _ => StepResult.mk st [] [] true
    | .ok (data_decoded, _) =>
      match pySubscript data_decoded 0 with
      | .error _ => StepResult.mk st [] [] true
      | .ok c0 =>
        match pyLower c0 with
        | .error _ => StepResult.mk st [] [] true
        | .ok command =>
          if command = lchars ("ping") then
            stepFinish
              (ConnState.mk st.database st.replica_sockets (some (.single handle_ping))
                st.keep_open) []
          else if command = lchars ("echo") then
            match handle_echo data_decoded with
            | .error _ => StepResult.mk st [] [] true
            | .ok reply =>
              stepFinish
                (ConnState.mk st.database st.replica_sockets (some (.single reply))
                  st.keep_open) []
          else if command = lchars ("set") then
            match handle_set data_decoded st.replica_sockets st.database timestamp data with
            | (sends, .error _) => StepResult.mk st [] sends true
            | (sends, .ok (database1, reply)) =>
              stepFinish
                (ConnState.mk database1 st.replica_sockets (some (.single reply))
                  st.keep_open) sends
          else if command = lchars ("get") then
            match handle_get data_decoded st.database timestamp with
            | .error _ => StepResult.mk st [] [] true
            | .ok (database1, reply) =>
              stepFinish
                (ConnState.mk database1 st.replica_sockets (some (.single reply))
                  st.keep_open) []
          else if command = lchars ("info") then
            stepFinish
              (ConnState.mk st.database st.replica_sockets
                (some (.single (handle_info replication_info))) st.keep_open) []
          else if command = lchars ("replconf") then
            stepFinish
              (ConnState.mk st.database st.replica_sockets (some (.single handle_replconf))
                st.keep_open) []
          else if command = lchars ("psync") then
            match handle_psync data_decoded client_socket st.replica_sockets
                new_replication_id with
            | .error _ => StepResult.mk st [] [] true
            | .ok (resp, socks) =>
              stepFinish (ConnState.mk st.database socks (some resp) true) []
          else stepFinish st []

mutual
/-- A value with no error and no bytes anywhere inside: the kinds for which the
round-trip law can hold. -/
def goodVal : PyVal → Bool
  | .str _ => true
  | .int _ => true
  | PyVal.none => true
  | .exc _ => false
  | .bytes _ => false
  | .list l => goodList l

/-- All elements of the list are good. -/
def goodList : List PyVal → Bool
  | [] => true
  | v :: vs => goodVal v && goodList vs
end

mutual
/-- Nesting depth of a value: the decoder fuel needed to decode it. -/
def vdepth : PyVal → Nat
  | .list l => vdepthList l + 1
  | _ => 1

/-- Maximum nesting depth over a list of values. -/
def vdepthList : List PyVal → Nat
  | [] => 0
  | v :: vs => max (vdepth v) (vdepthList vs)
end

/-- The pipelined chunk of two complete SET frames from the spec scenario,
delivered in a single socket read. -/
def pipelinedChunk : List Char :=
  lchars ("*3\r\n$3\r\nSET\r\n$3\r\nfoo\r\n$3\r\n123\r\n*3\r\n$3\r\nSET\r\n$3\r\nbar\r\n$3\r\n456\r\n")

/-- The first SET frame of the pipelined chunk on its own. -/
def setFooFrame : List Char := lchars ("*3\r\n$3\r\nSET\r\n$3\r\nfoo\r\n$3\r\n123\r\n")

/-- State of a freshly accepted client connection over an empty store. -/
def freshConn : ConnState := ConnState.mk emptyStore [] Option.none false

/-- A concrete ReplicationInfo for concrete dispatcher runs. -/
def masterInfo : ReplicationInfo := ReplicationInfo.mk (lchars ("master")) (lchars ("rid")) 0

/-- Wire bytes of the PING frame from the spec scenario. -/
def pingFrame : List Nat := utf8Encode (lchars ("*1\r\n$4\r\nPING\r\n"))

/-- Wire bytes of a well-formed frame whose command FOO is not recognized. -/
def unknownFrame : List Nat := utf8Encode (lchars ("*1\r\n$3\r\nFOO\r\n"))

/-- Connection state after one successfully handled PING. -/
def afterPing : ConnState :=
  (handle_client_step 5 0 masterInfo (lchars ("rid")) freshConn pingFrame 0).state

/-- The 88 snapshot bytes obtained from the EMPTY_RDB hex constant. -/
def rdbBytes : List Nat := (fromhex EMPTY_RDB).getD []

theorem charDigit_toNat (d : Nat) (h : d < 10) : (Char.ofNat (48 + d)).toNat = 48 + d := by
  interval_cases d <;> decide

theorem charDigit_isDigit (d : Nat) (h : d < 10) : (Char.ofNat (48 + d)).isDigit = true := by
  interval_cases d <;> decide

theorem isDigit_ne_cr {c : Char} (h : c.isDigit = true) : c ≠ '\r' := by
  intro he
  subst he
  exact absurd h (by decide)

theorem isDigit_ne_dash {c : Char} (h : c.isDigit = true) : c ≠ '-' := by
  intro he
  subst he
  exact absurd h (by decide)

theorem isDigit_ne_plus {c : Char} (h : c.isDigit = true) : c ≠ '+' := by
  intro he
  subst he
  exact absurd h (by decide)

theorem digitsVal_append (xs : List Char) (d : Char) :
    digitsVal (xs ++ [d]) = 10 * digitsVal xs + (d.toNat - 48) := by
  simp [digitsVal, List.foldl_append]

theorem natDigitsAux_ne_nil (fuel n : Nat) : natDigitsAux fuel n ≠ [] := by
  cases fuel with
  | zero => simp [natDigitsAux]
  | succ f =>
    by_cases h : n < 10 <;> simp [natDigitsAux, h]

theorem natDigitsAux_digits (fuel : Nat) :
    ∀ n, n ≤ fuel → ∀ c ∈ natDigitsAux fuel n, c.isDigit = true := by
  induction fuel with
  | zero =>
    intro n hn c hc
    have hn0 : n = 0 := by omega
    subst hn0
    simp [natDigitsAux] at hc
    subst hc
    decide
  | succ f ih =>
    intro n hn c hc
    by_cases h : n < 10
    · simp [natDigitsAux, h] at hc
      subst hc
      exact charDigit_isDigit n h
    · simp only [natDigitsAux, if_neg h, List.mem_append, List.mem_singleton] at hc
      rcases hc with hc | hc
      · exact ih (n / 10) (by omega) c hc
      · subst hc
        exact charDigit_isDigit (n % 10) (by omega)

theorem digitsVal_natDigitsAux (fuel : Nat) :
    ∀ n, n ≤ fuel → digitsVal (natDigitsAux fuel n) = n := by
  induction fuel with
  | zero =>
    intro n hn
    have hn0 : n = 0 := by omega
    subst hn0
    decide
  | succ f ih =>
    intro n hn
    by_cases h : n < 10
    · simp only [natDigitsAux, if_pos h]
      show digitsVal [Char.ofNat (48 + n)] = n
      simp [digitsVal, charDigit_toNat n h]
    · simp only [natDigitsAux, if_neg h]
      rw [digitsVal_append, ih (n / 10) (by omega), charDigit_toNat (n % 10) (by omega)]
      omega

theorem natDigits_ne_nil (n : Nat) : natDigits n ≠ [] := natDigitsAux_ne_nil n n

theorem natDigits_digits (n : Nat) : ∀ c ∈ natDigits n, c.isDigit = true :=
  natDigitsAux_digits n n (le_refl n)

theorem digitsVal_natDigits (n : Nat) : digitsVal (natDigits n) = n :=
  digitsVal_natDigitsAux n n (le_refl n)

theorem natDigits_ne_cr (n : Nat) : ∀ c ∈ natDigits n, c ≠ '\r' :=
  fun c hc => isDigit_ne_cr (natDigits_digits n c hc)

theorem pyInt_natDigits (n : Nat) : pyInt (natDigits n) = .ok (n : Int) := by
  obtain ⟨c, cs, hcons⟩ := List.exists_cons_of_ne_nil (natDigits_ne_nil n)
  have hdig : ∀ x ∈ natDigits n, x.isDigit = true := natDigits_digits n
  have hc : c.isDigit = true := hdig c (by rw [hcons]; exact List.mem_cons_self c cs)
  have hall : (natDigits n).all Char.isDigit = true := by
    rw [List.all_eq_true]
    exact hdig
  rw [pyInt, if_neg (by rw [hcons]; simp)]
  rw [if_neg (by
    rw [hcons]
    simp only [List.head?_cons, Option.some.injEq]
    exact isDigit_ne_dash hc)]
  rw [if_neg (by
    rw [hcons]
    simp only [List.head?_cons, Option.some.injEq]
    exact isDigit_ne_plus hc)]
  rw [if_pos hall, digitsVal_natDigits]

theorem pyInt_intChars (m : Int) : pyInt (intChars m) = .ok m := by
  by_cases hm : m < 0
  · rw [intChars, if_pos hm]
    have hne : natDigits m.natAbs ≠ [] := natDigits_ne_nil _
    have hall : (natDigits m.natAbs).all Char.isDigit = true := by
      rw [List.all_eq_true]
      exact natDigits_digits _
    rw [pyInt, if_neg (by simp)]
    rw [if_pos (by simp)]
    rw [if_pos (by simp [hne, hall])]
    simp only [List.tail_cons]
    rw [digitsVal_natDigits]
    congr 1
    omega
  · rw [intChars, if_neg hm]
    rw [pyInt_natDigits]
    congr 1
    omega

theorem pyIndex_append {α : Type} (l1 : List α) (c : α) (rest : List α) :
    pyIndex (l1 ++ c :: rest) (l1.length : Int) = .ok c := by
  rw [pyIndex]
  have h0 : ¬ ((l1.length : Int) < 0) := by omega
  simp only [if_neg h0, Int.toNat_natCast, List.drop_left]

theorem crlfPos_append (xs : List Char) (rest : List Char) (h : ∀ c ∈ xs, c ≠ '\r') :
    crlfPos (xs ++ '\r' :: '\n' :: rest) = some xs.length := by
  induction xs with
  | nil => simp [crlfPos]
  | cons x xs ih =>
    have hx : x ≠ '\r' := h x (List.mem_cons_self x xs)
    have htl : ∀ c ∈ xs, c ≠ '\r' := fun c hc => h c (List.mem_cons_of_mem x hc)
    rcases hxs : xs ++ '\r' :: '\n' :: rest with _ | ⟨b, t⟩
    · exact absurd hxs (by simp)
    · rw [List.cons_append, hxs, crlfPos]
      rw [if_neg (by
        rintro ⟨h1, h2⟩
        exact hx h1)]
      rw [← hxs, ih htl]
      simp

theorem pyFind_append (pre xs rest : List Char) (h : ∀ c ∈ xs, c ≠ '\r') :
    pyFind (pre ++ (xs ++ '\r' :: '\n' :: rest)) (pre.length : Int) =
      ((pre.length + xs.length : Nat) : Int) := by
  rw [pyFind]
  have h0 : ¬ ((pre.length : Int) < 0) := by omega
  simp only [if_neg h0, Int.toNat_natCast]
  rw [List.drop_left, crlfPos_append xs rest h]

theorem take_all_append {α : Type} (l1 l2 : List α) (n : Nat) (hn : n = l1.length) :
    (l1 ++ l2).take n = l1 ++ l2.take (n - l1.length) := by
  subst hn
  simp [List.take_left]

theorem pySlice_append (pre mid suf : List Char) :
    pySlice (pre ++ mid ++ suf) (pre.length : Int) ((pre.length : Int) + (mid.length : Int)) =
      mid := by
  rw [pySlice]
  have hlen : (pre ++ mid ++ suf).length = pre.length + mid.length + suf.length := by
    simp
    omega
  have ha : sliceIdx (pre ++ mid ++ suf).length (pre.length : Int) = pre.length := by
    rw [sliceIdx, if_neg (by omega)]
    rw [Int.toNat_natCast]
    omega
  have hb : sliceIdx (pre ++ mid ++ suf).length ((pre.length : Int) + (mid.length : Int)) =
      pre.length + mid.length := by
    rw [sliceIdx, if_neg (by omega)]
    have : ((pre.length : Int) + (mid.length : Int)).toNat = pre.length + mid.length := by
      omega
    rw [this]
    omega
  rw [ha, hb]
  have h1 : pre ++ mid ++ suf = (pre ++ mid) ++ suf := by simp
  rw [h1]
  rw [take_all_append (pre ++ mid) suf _ (by simp)]
  simp [List.drop_left]

theorem goodList_mem {l : List PyVal} (h : goodList l = true) : ∀ v ∈ l, goodVal v = true := by
  induction l with
  | nil => intro v hv; cases hv
  | cons x xs ih =>
    rw [goodList, Bool.and_eq_true] at h
    intro v hv
    rcases List.mem_cons.mp hv with hv | hv
    · subst hv; exact h.1
    · exact ih h.2 v hv

theorem vdepthList_mem {l : List PyVal} : ∀ v ∈ l, vdepth v ≤ vdepthList l := by
  induction l with
  | nil => intro v hv; cases hv
  | cons x xs ih =>
    intro v hv
    rw [vdepthList]
    rcases List.mem_cons.mp hv with hv | hv
    · subst hv; exact Nat.le_max_left _ _
    · exact le_trans (ih v hv) (Nat.le_max_right _ _)

theorem crFree_cons {c : Char} {xs : List Char} (hc : c ≠ '\r') (hxs : ∀ x ∈ xs, x ≠ '\r') :
    ∀ x ∈ c :: xs, x ≠ '\r' := by
  intro x hx
  rcases List.mem_cons.mp hx with rfl | hx
  · exact hc
  · exact hxs x hx

theorem crFree_nil : ∀ x ∈ ([] : List Char), x ≠ '\r' := by
  intro x hx
  cases hx

theorem intChars_ne_cr (m : Int) : ∀ c ∈ intChars m, c ≠ '\r' := by
  intro c hc
  rw [intChars] at hc
  by_cases hm : m < 0
  · rw [if_pos hm] at hc
    rcases List.mem_cons.mp hc with rfl | hc
    · decide
    · exact natDigits_ne_cr _ c hc
  · rw [if_neg hm] at hc
    exact natDigits_ne_cr _ c hc

theorem pyIndex_at {α : Type} (l1 : List α) (c : α) (rest : List α) (i : Int)
    (hi : i = (l1.length : Int)) : pyIndex (l1 ++ c :: rest) i = .ok c := by
  subst hi
  exact pyIndex_append l1 c rest

theorem pyFind_at (pre xs rest : List Char) (i : Int) (hi : i = (pre.length : Int))
    (h : ∀ c ∈ xs, c ≠ '\r') :
    pyFind (pre ++ (xs ++ '\r' :: '\n' :: rest)) i = ((pre.length + xs.length : Nat) : Int) := by
  subst hi
  exact pyFind_append pre xs rest h

theorem pySlice_at (pre mid suf : List Char) (a b : Int) (ha : a = (pre.length : Int))
    (hb : b = (pre.length : Int) + (mid.length : Int)) :
    pySlice (pre ++ mid ++ suf) a b = mid := by
  subst ha
  subst hb
  exact pySlice_append pre mid suf

theorem decode_encode_none (f : Nat) (pre suf : List Char) :
    decode_resp (f + 1) (pre ++ encode_resp PyVal.none ++ suf) (pre.length : Int) =
      .ok (PyVal.none, (pre.length : Int) + ((encode_resp PyVal.none).length : Int)) := by
  have henc : encode_resp PyVal.none = '$' :: (['-', '1'] ++ ('\r' :: '\n' :: [])) := rfl
  rw [henc]
  rw [decode_resp]
  rw [show pre ++ ('$' :: (['-', '1'] ++ ('\r' :: '\n' :: []))) ++ suf =
      pre ++ '$' :: (['-', '1'] ++ '\r' :: '\n' :: suf) by simp]
  rw [pyIndex_at pre '$' _ _ rfl]
  dsimp only
  rw [show pre ++ '$' :: (['-', '1'] ++ '\r' :: '\n' :: suf) =
      pre ++ (('$' :: ['-', '1']) ++ '\r' :: '\n' :: suf) by simp]
  rw [pyFind_at pre ('$' :: ['-', '1']) suf _ rfl
    (crFree_cons (by decide) (crFree_cons (by decide) (crFree_cons (by decide) crFree_nil)))]
  simp only [reduceIte]
  rw [show pre ++ (('$' :: ['-', '1']) ++ '\r' :: '\n' :: suf) =
      (pre ++ ['$']) ++ ['-', '1'] ++ ('\r' :: '\n' :: suf) by simp]
  rw [pySlice_at (pre ++ ['$']) ['-', '1'] ('\r' :: '\n' :: suf) _ _
    (by simp) (by simp; omega)]
  rw [show pyInt ['-', '1'] = .ok (-1) from rfl]
  dsimp only
  rw [if_pos rfl]
  have : ((pre.length + ('$' :: ['-', '1']).length : Nat) : Int) + 2 =
      (pre.length : Int) + (('$' :: (['-', '1'] ++ ('\r' :: '\n' :: []))).length : Int) := by
    simp
    omega
  rw [this]
  rw [if_neg (show ¬ ('$' : Char) = '+' by decide), if_neg (show ¬ ('$' : Char) = '-' by decide),
    if_neg (show ¬ ('$' : Char) = ':' by decide)]

theorem decode_encode_str (f : Nat) (s : List Char) (pre suf : List Char) :
    decode_resp (f + 1) (pre ++ encode_resp (PyVal.str s) ++ suf) (pre.length : Int) =
      .ok (PyVal.str s, (pre.length : Int) + ((encode_resp (PyVal.str s)).length : Int)) := by
  have henc : encode_resp (PyVal.str s) =
      '$' :: (natDigits s.length ++ ('\r' :: '\n' :: (s ++ ['\r', '\n']))) := rfl
  rw [henc]
  rw [decode_resp]
  rw [show pre ++ ('$' :: (natDigits s.length ++ ('\r' :: '\n' :: (s ++ ['\r', '\n'])))) ++ suf =
      pre ++ '$' :: (natDigits s.length ++ ('\r' :: '\n' :: (s ++ '\r' :: '\n' :: suf))) by simp]
  rw [pyIndex_at pre '$' _ _ rfl]
  dsimp only
  rw [show pre ++ '$' :: (natDigits s.length ++ ('\r' :: '\n' :: (s ++ '\r' :: '\n' :: suf))) =
      pre ++ (('$' :: natDigits s.length) ++ '\r' :: '\n' :: (s ++ '\r' :: '\n' :: suf)) by simp]
  rw [pyFind_at pre ('$' :: natDigits s.length) (s ++ '\r' :: '\n' :: suf) _ rfl
    (crFree_cons (by decide) (natDigits_ne_cr _))]
  rw [if_neg (show ¬ ('$' : Char) = '+' by decide), if_neg (show ¬ ('$' : Char) = '-' by decide),
    if_neg (show ¬ ('$' : Char) = ':' by decide), if_pos (show ('$' : Char) = '$' from rfl)]
  rw [show pre ++ (('$' :: natDigits s.length) ++ '\r' :: '\n' :: (s ++ '\r' :: '\n' :: suf)) =
      (pre ++ ['$']) ++ natDigits s.length ++ ('\r' :: '\n' :: (s ++ '\r' :: '\n' :: suf)) by simp]
  rw [pySlice_at (pre ++ ['$']) (natDigits s.length) ('\r' :: '\n' :: (s ++ '\r' :: '\n' :: suf))
    _ _ (by simp <;> omega) (by simp <;> omega)]
  rw [pyInt_natDigits]
  dsimp only
  rw [if_neg (show ¬ ((s.length : Nat) : Int) = -1 by omega)]
  rw [show (pre ++ ['$']) ++ natDigits s.length ++ ('\r' :: '\n' :: (s ++ '\r' :: '\n' :: suf)) =
      (pre ++ '$' :: natDigits s.length ++ ['\r', '\n']) ++ s ++ ('\r' :: '\n' :: suf) by simp]
  rw [pySlice_at (pre ++ '$' :: natDigits s.length ++ ['\r', '\n']) s ('\r' :: '\n' :: suf)
    _ _ (by simp <;> omega) (by simp <;> omega)]
  have hidx : ((pre.length + ('$' :: natDigits s.length).length : Nat) : Int) + 2 +
      ((s.length : Nat) : Int) + 2 =
      (pre.length : Int) +
        (('$' :: (natDigits s.length ++ ('\r' :: '\n' :: (s ++ ['\r', '\n'])))).length : Int) := by
    simp
    omega
  rw [hidx]

theorem decode_encode_int (f : Nat) (n : Int) (pre suf : List Char) :
    decode_resp (f + 1) (pre ++ encode_resp (PyVal.int n) ++ suf) (pre.length : Int) =
      .ok (PyVal.int n, (pre.length : Int) + ((encode_resp (PyVal.int n)).length : Int)) := by
  have henc : encode_resp (PyVal.int n) = ':' :: (intChars n ++ ['\r', '\n']) := rfl
  rw [henc]
  rw [decode_resp]
  rw [show pre ++ (':' :: (intChars n ++ ['\r', '\n'])) ++ suf =
      pre ++ ':' :: (intChars n ++ '\r' :: '\n' :: suf) by simp]
  rw [pyIndex_at pre ':' _ _ rfl]
  dsimp only
  rw [show pre ++ ':' :: (intChars n ++ '\r' :: '\n' :: suf) =
      pre ++ ((':' :: intChars n) ++ '\r' :: '\n' :: suf) by simp]
  rw [pyFind_at pre (':' :: intChars n) suf _ rfl
    (crFree_cons (by decide) (intChars_ne_cr n))]
  rw [if_neg (show ¬ (':' : Char) = '+' by decide), if_neg (show ¬ (':' : Char) = '-' by decide),
    if_pos (show (':' : Char) = ':' from rfl)]
  rw [show pre ++ ((':' :: intChars n) ++ '\r' :: '\n' :: suf) =
      (pre ++ [':']) ++ intChars n ++ ('\r' :: '\n' :: suf) by simp]
  rw [pySlice_at (pre ++ [':']) (intChars n) ('\r' :: '\n' :: suf) _ _
    (by simp <;> omega) (by simp <;> omega)]
  rw [pyInt_intChars]
  dsimp only
  have hidx : ((pre.length + (':' :: intChars n).length : Nat) : Int) + 2 =
      (pre.length : Int) + ((':' :: (intChars n ++ ['\r', '\n'])).length : Int) := by
    simp
    omega
  rw [hidx]

theorem decode_loop_append (dec : List Char → Int → Except Unit (PyVal × Int))
    (vs : List PyVal) :
    ∀ (pre suf : List Char) (acc : List PyVal),
      (∀ v ∈ vs, ∀ pre1 suf1 : List Char,
        dec (pre1 ++ encode_resp v ++ suf1) (pre1.length : Int) =
          .ok (v, (pre1.length : Int) + ((encode_resp v).length : Int))) →
      decode_loop dec (pre ++ encodeList vs ++ suf) vs.length acc (pre.length : Int) =
        .ok (.list (acc ++ vs), (pre.length : Int) + ((encodeList vs).length : Int)) := by
  induction vs with
  | nil =>
    intro pre suf acc H
    rw [show encodeList [] = [] from rfl]
    rw [show ([] : List PyVal).length = 0 from rfl]
    rw [decode_loop]
    simp
  | cons v vs ih =>
    intro pre suf acc H
    rw [show (v :: vs).length = vs.length + 1 from rfl]
    rw [decode_loop]
    rw [show encodeList (v :: vs) = encode_resp v ++ encodeList vs from rfl]
    rw [show pre ++ (encode_resp v ++ encodeList vs) ++ suf =
        pre ++ encode_resp v ++ (encodeList vs ++ suf) by simp]
    rw [H v (List.mem_cons_self v vs) pre (encodeList vs ++ suf)]
    dsimp only
    rw [show pre ++ encode_resp v ++ (encodeList vs ++ suf) =
        (pre ++ encode_resp v) ++ encodeList vs ++ suf by simp]
    rw [show (pre.length : Int) + ((encode_resp v).length : Int) =
        (((pre ++ encode_resp v).length : Nat) : Int) by simp]
    rw [ih (pre ++ encode_resp v) suf (acc ++ [v])
      (fun w hw => H w (List.mem_cons_of_mem v hw))]
    rw [show (acc ++ [v]) ++ vs = acc ++ v :: vs by simp]
    have h2 : (((pre ++ encode_resp v).length : Nat) : Int) + ((encodeList vs).length : Int) =
        (pre.length : Int) + (((encode_resp v ++ encodeList vs).length : Nat) : Int) := by
      simp
      omega
    rw [h2]

theorem decode_encode_list (f : Nat) (l : List PyVal) (pre suf : List Char)
    (H : ∀ v ∈ l, ∀ pre1 suf1 : List Char,
      decode_resp f (pre1 ++ encode_resp v ++ suf1) (pre1.length : Int) =
        .ok (v, (pre1.length : Int) + ((encode_resp v).length : Int))) :
    decode_resp (f + 1) (pre ++ encode_resp (PyVal.list l) ++ suf) (pre.length : Int) =
      .ok (PyVal.list l, (pre.length : Int) + ((encode_resp (PyVal.list l)).length : Int)) := by
  have henc : encode_resp (PyVal.list l) =
      '*' :: (natDigits l.length ++ ('\r' :: '\n' :: encodeList l)) := rfl
  rw [henc]
  rw [decode_resp]
  rw [show pre ++ ('*' :: (natDigits l.length ++ ('\r' :: '\n' :: encodeList l))) ++ suf =
      pre ++ '*' :: (natDigits l.length ++ ('\r' :: '\n' :: (encodeList l ++ suf))) by simp]
  rw [pyIndex_at pre '*' _ _ rfl]
  dsimp only
  rw [show pre ++ '*' :: (natDigits l.length ++ ('\r' :: '\n' :: (encodeList l ++ suf))) =
      pre ++ (('*' :: natDigits l.length) ++ '\r' :: '\n' :: (encodeList l ++ suf)) by simp]
  rw [pyFind_at pre ('*' :: natDigits l.length) (encodeList l ++ suf) _ rfl
    (crFree_cons (by decide) (natDigits_ne_cr _))]
  rw [if_neg (show ¬ ('*' : Char) = '+' by decide), if_neg (show ¬ ('*' : Char) = '-' by decide),
    if_neg (show ¬ ('*' : Char) = ':' by decide), if_neg (show ¬ ('*' : Char) = '$' by decide),
    if_pos (show ('*' : Char) = '*' from rfl)]
  rw [show pre ++ (('*' :: natDigits l.length) ++ '\r' :: '\n' :: (encodeList l ++ suf)) =
      (pre ++ ['*']) ++ natDigits l.length ++ ('\r' :: '\n' :: (encodeList l ++ suf)) by simp]
  rw [pySlice_at (pre ++ ['*']) (natDigits l.length) ('\r' :: '\n' :: (encodeList l ++ suf))
    _ _ (by simp <;> omega) (by simp <;> omega)]
  rw [pyInt_natDigits]
  dsimp only
  rw [Int.toNat_natCast]
  rw [show (pre ++ ['*']) ++ natDigits l.length ++ ('\r' :: '\n' :: (encodeList l ++ suf)) =
      (pre ++ '*' :: natDigits l.length ++ ['\r', '\n']) ++ encodeList l ++ suf by simp]
  rw [show ((pre.length + ('*' :: natDigits l.length).length : Nat) : Int) + 2 =
      (((pre ++ '*' :: natDigits l.length ++ ['\r', '\n']).length : Nat) : Int) by simp <;> omega]
  rw [decode_loop_append (decode_resp f) l (pre ++ '*' :: natDigits l.length ++ ['\r', '\n'])
    suf [] H]
  rw [show ([] : List PyVal) ++ l = l from rfl]
  have h2 : (((pre ++ '*' :: natDigits l.length ++ ['\r', '\n']).length : Nat) : Int) +
      ((encodeList l).length : Int) =
      (pre.length : Int) +
        (('*' :: (natDigits l.length ++ ('\r' :: '\n' :: encodeList l))).length : Int) := by
    simp
    omega
  rw [h2]

theorem vdepth_pos (v : PyVal) : 1 ≤ vdepth v := by
  cases v <;> simp [vdepth]

theorem decode_encode_at (fuel : Nat) :
    ∀ v : PyVal, goodVal v = true → vdepth v ≤ fuel →
      ∀ pre suf : List Char,
        decode_resp fuel (pre ++ encode_resp v ++ suf) (pre.length : Int) =
          .ok (v, (pre.length : Int) + ((encode_resp v).length : Int)) := by
  induction fuel with
  | zero =>
    intro v _ hd
    exact absurd hd (by have := vdepth_pos v; omega)
  | succ f ih =>
    intro v hg hd pre suf
    match v with
    | .str s => exact decode_encode_str f s pre suf
    | .int n => exact decode_encode_int f n pre suf
    | PyVal.none => exact decode_encode_none f pre suf
    | .exc s => exact absurd hg (by rw [show goodVal (.exc s) = false from rfl]; simp)
    | .bytes b => exact absurd hg (by rw [show goodVal (.bytes b) = false from rfl]; simp)
    | .list l =>
      apply decode_encode_list f l pre suf
      intro w hw pre1 suf1
      have hgw : goodVal w = true :=
        goodList_mem (by rw [show goodVal (.list l) = goodList l from rfl] at hg; exact hg) w hw
      have hdw : vdepth w ≤ f := by
        have h1 := vdepthList_mem w hw
        rw [show vdepth (.list l) = vdepthList l + 1 from rfl] at hd
        omega
      exact ih w hgw hdw pre1 suf1

theorem storeSet_get_self (db : Store) (k : List Char) (it : ValueItem) :
    storeSet db (.str k) it (.str k) = some it := by
  simp [storeSet, pvKeyEq]

theorem storeDel_get_self (db : Store) (k : List Char) :
    storeDel db (.str k) (.str k) = Option.none := by
  simp [storeDel, pvKeyEq]

theorem handle_set_noPx (c0 : PyVal) (k v : List Char) (rs : List Nat) (db : Store)
    (t0 : Int) (raw : List Char) :
    (handle_set (.list [c0, .str k, .str v]) rs db t0 raw).2 =
      .ok (storeSet db (.str k) (ValueItem.mk (.str v) (some MAX_32BIT_TIMESTAMP)),
        lchars ("$2\r\nOK\r\n")) := rfl




theorem handle_set_px (c0 : PyVal) (k v : List Char) (m : Int) (rs : List Nat) (db : Store)
    (t0 : Int) (raw : List Char) :
    (handle_set (.list [c0, .str k, .str v, .str (lchars ("px")), .str (intChars m)]) rs db t0
        raw).2 =
      .ok (storeSet db (.str k) (ValueItem.mk (.str v) (some (m + t0))),
        lchars ("$2\r\nOK\r\n")) := by
  conv_lhs => whnf
  have hpx : pyIntOf (PyVal.str (intChars m)) = Except.ok m := pyInt_intChars m
  rw [hpx]
  rfl

theorem handle_get_live (g0 : PyVal) (k : List Char) (db : Store) (t exp : Int) (pv : PyVal)
    (hlook : db (.str k) = some (ValueItem.mk pv (some exp))) (ht : ¬ exp ≤ t) :
    handle_get (.list [g0, .str k]) db t = .ok (db, encode_resp pv) := by
  conv_lhs => whnf
  have hlook2 : storeGet db (PyVal.str k) = some (ValueItem.mk pv (some exp)) := hlook
  rw [hlook2]
  dsimp only [Option.getD]
  rw [if_neg ht]
  rfl

theorem handle_get_expired (g0 : PyVal) (k : List Char) (db : Store) (t exp : Int) (pv : PyVal)
    (hlook : db (.str k) = some (ValueItem.mk pv (some exp))) (ht : exp ≤ t) :
    handle_get (.list [g0, .str k]) db t = .ok (storeDel db (.str k), lchars ("$-1\r\n")) := by
  conv_lhs => whnf
  have hlook2 : storeGet db (PyVal.str k) = some (ValueItem.mk pv (some exp)) := hlook
  rw [hlook2]
  dsimp only [Option.getD]
  rw [if_pos ht]
  rfl

/-- Claim C1 (amended): the codec round-trip law holds for every error-free and
bytes-free value the encoder supports: for any such value v and any decoder
fuel at least the nesting depth of v, decoding the encoded bytes from offset 0
yields v with a consumed length equal to the length of the encoding. The
bytes-typed bulk form is excluded, because its encoding omits the trailing CRLF
and so fails the law, as the counterexample shows. -/
theorem C1_roundtrip_good (v : PyVal) (fuel : Nat) (hg : goodVal v = true)
    (hf : vdepth v ≤ fuel) :
    decode_resp fuel (encode_resp v) 0 = .ok (v, ((encode_resp v).length : Int)) := by
  have h := decode_encode_at fuel v hg hf [] []
  simpa using h

/-- Claim C1 witness: the round-trip theorem applied to the concrete array
value of a one-character string, the integer -5 and null, at fuel 2. -/
theorem C1_roundtrip_good_witness :
    goodVal (PyVal.list [.str (lchars ("a")), .int (-5), PyVal.none]) = true ∧
    vdepth (PyVal.list [.str (lchars ("a")), .int (-5), PyVal.none]) ≤ 2 ∧
    decode_resp 2 (encode_resp (PyVal.list [.str (lchars ("a")), .int (-5), PyVal.none])) 0 =
      .ok (PyVal.list [.str (lchars ("a")), .int (-5), PyVal.none],
        ((encode_resp (PyVal.list [.str (lchars ("a")), .int (-5), PyVal.none])).length : Int)) :=
  ⟨rfl, by decide,
    C1_roundtrip_good (PyVal.list [.str (lchars ("a")), .int (-5), PyVal.none]) 2 rfl
      (by decide)⟩

/-- Claim C1 counterexample: for the bytes value of a-b-c the encoder emits the
seven characters of a $3 bulk header plus payload with no trailing CRLF, and
decoding those bytes returns the str value abc with consumed length 9, so
neither the value nor the consumed length round-trips for the bytes form. -/
theorem C1_counterexample :
    decode_resp 5 (encode_resp (.bytes [97, 98, 99])) 0 = .ok (.str (lchars ("abc")), 9) ∧
    (encode_resp (.bytes [97, 98, 99])).length = 7 ∧
    PyVal.str (lchars ("abc")) ≠ PyVal.bytes [97, 98, 99] :=
  ⟨rfl, rfl, fun h => PyVal.noConfusion h⟩

/-- Claim C2 (code bug): when a single socket read delivers the two complete
SET frames for foo and bar, the dispatcher decodes only the first frame of the
chunk: it applies SET foo 123, never applies SET bar 456, keeps looping, and
sends the single bulk reply for OK rather than two simple-string OK replies;
the remaining complete frame in the chunk is discarded, not drained. -/
theorem C2_pipelined_only_first_applied :
    (handle_client_step 5 0 masterInfo (lchars ("rid")) freshConn (utf8Encode pipelinedChunk)
        0).clientSent = [utf8Encode (lchars ("$2\r\nOK\r\n"))] ∧
    (handle_client_step 5 0 masterInfo (lchars ("rid")) freshConn (utf8Encode pipelinedChunk)
        0).state.database (.str (lchars ("foo"))) =
      some (ValueItem.mk (.str (lchars ("123"))) (some MAX_32BIT_TIMESTAMP)) ∧
    (handle_client_step 5 0 masterInfo (lchars ("rid")) freshConn (utf8Encode pipelinedChunk)
        0).state.database (.str (lchars ("bar"))) = Option.none ∧
    (handle_client_step 5 0 masterInfo (lchars ("rid")) freshConn (utf8Encode pipelinedChunk)
        0).breaks = false ∧
    (handle_client_step 5 0 masterInfo (lchars ("rid")) freshConn (utf8Encode pipelinedChunk)
        0).clientSent.flatten ≠ utf8Encode (lchars ("+OK\r\n+OK\r\n")) :=
  ⟨rfl, rfl, rfl, rfl, by decide⟩

/-- Claim C3 counterexample: SET k v PX 100 applied at time 0 with the PX
option spelled in upper case, as the claim and the spec scenario write it,
does not arm the 100 millisecond expiry: a GET at time 100, which is t0 plus
m, still returns the bulk string v and the record is still present. -/
theorem C3_counterexample :
    (handle_set (.list [.str (lchars ("SET")), .str (lchars ("k")), .str (lchars ("v")),
        .str (lchars ("PX")), .str (lchars ("100"))]) [] emptyStore 0 []).2 =
      .ok (storeSet emptyStore (.str (lchars ("k")))
          (ValueItem.mk (.str (lchars ("v"))) (some MAX_32BIT_TIMESTAMP)),
        lchars ("$2\r\nOK\r\n")) ∧
    handle_get (.list [.str (lchars ("GET")), .str (lchars ("k"))])
        (storeSet emptyStore (.str (lchars ("k")))
          (ValueItem.mk (.str (lchars ("v"))) (some MAX_32BIT_TIMESTAMP))) 100 =
      .ok (storeSet emptyStore (.str (lchars ("k")))
          (ValueItem.mk (.str (lchars ("v"))) (some MAX_32BIT_TIMESTAMP)),
        lchars ("$1\r\nv\r\n")) ∧
    storeSet emptyStore (.str (lchars ("k")))
        (ValueItem.mk (.str (lchars ("v"))) (some MAX_32BIT_TIMESTAMP)) (.str (lchars ("k"))) ≠
      Option.none :=
  ⟨rfl, rfl, fun h => Option.noConfusion h⟩

/-- Claim C3 (amended): with the PX option spelled in lower case px, the only
spelling the source compares against, expiry is monotone: after SET k v px m
at master time t0, a GET at any t1 before t0 plus m returns the bulk string v
and leaves the store unchanged, and a GET at any t2 at or past t0 plus m
returns the null bulk and removes the record from the store. -/
theorem C3_expiry_monotonic_px (c0 g0 : PyVal) (k v : List Char) (m t0 t1 t2 : Int)
    (db : Store) (rs : List Nat) (raw : List Char) (h1 : t1 < t0 + m) (h2 : t0 + m ≤ t2) :
    (handle_set (.list [c0, .str k, .str v, .str (lchars ("px")), .str (intChars m)]) rs db t0
        raw).2 =
      .ok (storeSet db (.str k) (ValueItem.mk (.str v) (some (m + t0))),
        lchars ("$2\r\nOK\r\n")) ∧
    handle_get (.list [g0, .str k])
        (storeSet db (.str k) (ValueItem.mk (.str v) (some (m + t0)))) t1 =
      .ok (storeSet db (.str k) (ValueItem.mk (.str v) (some (m + t0))),
        encode_resp (.str v)) ∧
    handle_get (.list [g0, .str k])
        (storeSet db (.str k) (ValueItem.mk (.str v) (some (m + t0)))) t2 =
      .ok (storeDel (storeSet db (.str k) (ValueItem.mk (.str v) (some (m + t0)))) (.str k),
        lchars ("$-1\r\n")) ∧
    storeDel (storeSet db (.str k) (ValueItem.mk (.str v) (some (m + t0)))) (.str k)
        (.str k) = Option.none :=
  ⟨handle_set_px c0 k v m rs db t0 raw,
    handle_get_live g0 k _ t1 (m + t0) (.str v) (storeSet_get_self db k _) (by omega),
    handle_get_expired g0 k _ t2 (m + t0) (.str v) (storeSet_get_self db k _) (by omega),
    storeDel_get_self _ k⟩

/-- Claim C3 witness: the monotonicity theorem applied at m equal 100, t0
equal 5, t1 equal 104 and t2 equal 105 on an empty store. -/
theorem C3_expiry_monotonic_px_witness :
    (104 : Int) < 5 + 100 ∧ (5 : Int) + 100 ≤ 105 ∧
    ((handle_set (.list [.str (lchars ("SET")), .str (lchars ("k")), .str (lchars ("v")),
          .str (lchars ("px")), .str (intChars 100)]) [] emptyStore 5 []).2 =
        .ok (storeSet emptyStore (.str (lchars ("k")))
            (ValueItem.mk (.str (lchars ("v"))) (some (100 + 5))),
          lchars ("$2\r\nOK\r\n")) ∧
      handle_get (.list [.str (lchars ("GET")), .str (lchars ("k"))])
          (storeSet emptyStore (.str (lchars ("k")))
            (ValueItem.mk (.str (lchars ("v"))) (some (100 + 5)))) 104 =
        .ok (storeSet emptyStore (.str (lchars ("k")))
            (ValueItem.mk (.str (lchars ("v"))) (some (100 + 5))),
          encode_resp (.str (lchars ("v")))) ∧
      handle_get (.list [.str (lchars ("GET")), .str (lchars ("k"))])
          (storeSet emptyStore (.str (lchars ("k")))
            (ValueItem.mk (.str (lchars ("v"))) (some (100 + 5)))) 105 =
        .ok (storeDel (storeSet emptyStore (.str (lchars ("k")))
              (ValueItem.mk (.str (lchars ("v"))) (some (100 + 5)))) (.str (lchars ("k"))),
          lchars ("$-1\r\n")) ∧
      storeDel (storeSet emptyStore (.str (lchars ("k")))
            (ValueItem.mk (.str (lchars ("v"))) (some (100 + 5)))) (.str (lchars ("k")))
          (.str (lchars ("k"))) = Option.none) :=
  ⟨by decide, by decide,
    C3_expiry_monotonic_px (.str (lchars ("SET"))) (.str (lchars ("GET"))) (lchars ("k"))
      (lchars ("v")) 100 5 104 105 emptyStore [] [] (by decide) (by decide)⟩

/-- Claim C4 counterexample: when the received chunk holds two SET frames, the
master decodes and applies only the first SET yet forwards the whole chunk to
the replica socket, so the bytes written are not the frame bytes of that SET
command. -/
theorem C4_counterexample :
    decode_resp 5 pipelinedChunk 0 =
      .ok (.list [.str (lchars ("SET")), .str (lchars ("foo")), .str (lchars ("123"))], 31) ∧
    (handle_set (.list [.str (lchars ("SET")), .str (lchars ("foo")), .str (lchars ("123"))])
        [0] emptyStore 0 pipelinedChunk).1 = [(0, utf8Encode pipelinedChunk)] ∧
    utf8Encode pipelinedChunk ≠ utf8Encode setFooFrame :=
  ⟨rfl, rfl, by decide⟩

/-- Claim C4 (amended): for every SET the master processes, the bytes written
to each attached replica socket are exactly the UTF-8 bytes of the entire
received chunk in which the SET arrived (the raw received data, not a
re-encoding), one write per replica in list order, computed inside the same
handle_set critical section that mutates the store. -/
theorem C4_replicates_whole_chunk (data_decoded : PyVal) (rs : List Nat) (db : Store)
    (t : Int) (data : List Char) :
    (handle_set data_decoded rs db t data).1 = rs.map (fun sock => (sock, utf8Encode data)) := by
  show (rs.map (replicate [data])).flatten = _
  induction rs with
  | nil => rfl
  | cons s ss ih =>
    rw [List.map_cons, List.flatten_cons, ih, List.map_cons]
    rfl

/-- Claim C5 (code bug): the reply to PSYNC with replid question mark is the
two parts returned by handle_psync and the second is exactly as claimed, the
header $88 CRLF followed by the 88 snapshot bytes with no trailing CRLF; but
the first part is the bulk string $53 CRLF FULLRESYNC id 0 CRLF, not the
simple string demanded by the claim, because encode_resp encodes every Python
str as a bulk string. -/
theorem C5_fullresync_bulk_not_simple (id : List Char) (hid : id.length = 40) (sock : Nat)
    (rs : List Nat) :
    handle_psync (.list [.str (lchars ("PSYNC")), .str (lchars ("?")), .str (lchars ("-1"))])
        sock rs id =
      .ok (.multi [RPart.str (lchars ("$53\r\nFULLRESYNC ") ++ id ++ lchars (" 0\r\n")),
        RPart.bytes (utf8Encode (lchars ("$88\r\n")) ++ rdbBytes)], rs ++ [sock]) ∧
    rdbBytes.length = 88 ∧
    lchars ("$53\r\nFULLRESYNC ") ++ id ++ lchars (" 0\r\n") ≠
      lchars ("+FULLRESYNC ") ++ id ++ lchars (" 0\r\n") := by
  refine ⟨?_, rfl, ?_⟩
  · conv_lhs => whnf
    have henc : encode_resp (.str (lchars ("FULLRESYNC ") ++ id ++ lchars (" 0"))) =
        '$' :: (natDigits (lchars ("FULLRESYNC ") ++ id ++ lchars (" 0")).length ++
          ('\r' :: '\n' :: ((lchars ("FULLRESYNC ") ++ id ++ lchars (" 0")) ++ ['\r', '\n']))) :=
      rfl
    have hlen : (lchars ("FULLRESYNC ") ++ id ++ lchars (" 0")).length = 53 := by
      simp [lchars]
      omega
    rw [henc, hlen]
    rw [show natDigits 53 = ['5', '3'] from rfl]
    rw [show lchars ("$53\r\nFULLRESYNC ") ++ id ++ lchars (" 0\r\n") =
        '$' :: '5' :: '3' :: '\r' :: '\n' ::
          (lchars ("FULLRESYNC ") ++ (id ++ lchars (" 0\r\n"))) by simp [lchars]]
    simp [lchars]
    rfl
  · intro h
    rw [show lchars ("$53\r\nFULLRESYNC ") = '$' :: lchars ("53\r\nFULLRESYNC ") from rfl,
      show lchars ("+FULLRESYNC ") = '+' :: lchars ("FULLRESYNC ") from rfl] at h
    simp at h

/-- Claim C5 witness: the PSYNC reply-shape theorem applied to a concrete
40-character replication id. -/
theorem C5_fullresync_bulk_not_simple_witness :
    (List.replicate 40 'a').length = 40 ∧
    (handle_psync (.list [.str (lchars ("PSYNC")), .str (lchars ("?")), .str (lchars ("-1"))])
        7 [] (List.replicate 40 'a') =
      .ok (.multi [RPart.str (lchars ("$53\r\nFULLRESYNC ") ++ List.replicate 40 'a' ++
          lchars (" 0\r\n")),
        RPart.bytes (utf8Encode (lchars ("$88\r\n")) ++ rdbBytes)], [] ++ [7]) ∧
      rdbBytes.length = 88 ∧
      lchars ("$53\r\nFULLRESYNC ") ++ List.replicate 40 'a' ++ lchars (" 0\r\n") ≠
        lchars ("+FULLRESYNC ") ++ List.replicate 40 'a' ++ lchars (" 0\r\n")) :=
  ⟨by decide, C5_fullresync_bulk_not_simple (List.replicate 40 'a') (by decide) 7 []⟩

/-- Claim C6 (code bug): the reply to PING is the bulk string form of PONG,
not the simple-string wire form with a plus sign that the claim requires;
encode_resp has no simple-string branch at all, so the OK reply is likewise a
bulk string. -/
theorem C6_ping_reply_bulk_not_simple :
    (handle_client_step 5 0 masterInfo (lchars ("rid")) freshConn pingFrame 0).clientSent =
      [utf8Encode (lchars ("$4\r\nPONG\r\n"))] ∧
    handle_ping = lchars ("$4\r\nPONG\r\n") ∧
    handle_ping ≠ lchars ("+PONG\r\n") ∧
    handle_replconf = lchars ("$2\r\nOK\r\n") :=
  ⟨rfl, rfl, by decide, rfl⟩

/-- Claim C7 (code bug): on the truncated six-character buffer consisting of a
$3 bulk header and only two payload characters, the decoder does not report an
Incomplete result: it returns the truncated payload ab with next offset 9,
past the buffer end; on a CRLF-less simple-string buffer it likewise returns a
truncated value with next offset 1. -/
theorem C7_truncated_not_incomplete :
    decode_resp 5 (lchars ("$3\r\nab")) 0 = .ok (.str (lchars ("ab")), 9) ∧
    (lchars ("$3\r\nab")).length = 6 ∧
    decode_resp 5 (lchars ("+ab")) 0 = .ok (.str (lchars ("a")), 1) :=
  ⟨rfl, rfl, rfl⟩

/-- Claim C8 (code bug): the PX option of SET is compared case-sensitively
against the lower-case literal px: with upper-case PX the option is ignored
and the sentinel expiry (2 to the 31 minus 1) times 1000 is stored instead of
now plus ms, while the lower-case spelling stores now plus ms; and a SET
without PX stores that sentinel rather than no expiry. -/
theorem C8_px_option_case_sensitive :
    (handle_set (.list [.str (lchars ("SET")), .str (lchars ("k")), .str (lchars ("v")),
        .str (lchars ("PX")), .str (lchars ("100"))]) [] emptyStore 0 []).2 =
      .ok (storeSet emptyStore (.str (lchars ("k")))
          (ValueItem.mk (.str (lchars ("v"))) (some MAX_32BIT_TIMESTAMP)),
        lchars ("$2\r\nOK\r\n")) ∧
    (handle_set (.list [.str (lchars ("SET")), .str (lchars ("k")), .str (lchars ("v")),
        .str (lchars ("px")), .str (lchars ("100"))]) [] emptyStore 0 []).2 =
      .ok (storeSet emptyStore (.str (lchars ("k")))
          (ValueItem.mk (.str (lchars ("v"))) (some 100)),
        lchars ("$2\r\nOK\r\n")) ∧
    MAX_32BIT_TIMESTAMP ≠ 0 + 100 :=
  ⟨rfl, rfl, by decide⟩

/-- Claim C9 (code bug): an unknown command closes the connection without a
reply only when it is the first frame on the connection, where reading the
never-assigned response variable raises NameError; after a successfully
handled PING, the stale response variable still holds the previous reply, so
the dispatcher re-sends the PONG reply bytes and keeps the connection open. -/
theorem C9_unknown_command_stale_reply :
    (handle_client_step 5 0 masterInfo (lchars ("rid")) freshConn unknownFrame 0).breaks = true ∧
    (handle_client_step 5 0 masterInfo (lchars ("rid")) freshConn unknownFrame 0).clientSent =
      [] ∧
    (handle_client_step 5 0 masterInfo (lchars ("rid")) afterPing unknownFrame 0).breaks =
      false ∧
    (handle_client_step 5 0 masterInfo (lchars ("rid")) afterPing unknownFrame 0).clientSent =
      [utf8Encode (lchars ("$4\r\nPONG\r\n"))] :=
  ⟨rfl, rfl, rfl, rfl⟩

/-- Claim C10: a SET without a PX option stores the record with the fixed
sentinel expiry (2 to the 31 minus 1) times 1000 milliseconds rather than an
absent expiry, and a GET evaluated at any timestamp at or past that sentinel
deletes the record and returns the null bulk, leaving the key absent. -/
theorem C10_sentinel_expiry (c0 g0 : PyVal) (k v : List Char) (db : Store) (rs : List Nat)
    (raw : List Char) (t0 t : Int) (ht : MAX_32BIT_TIMESTAMP ≤ t) :
    MAX_32BIT_TIMESTAMP = (2 ^ 31 - 1) * 1000 ∧
    (handle_set (.list [c0, .str k, .str v]) rs db t0 raw).2 =
      .ok (storeSet db (.str k) (ValueItem.mk (.str v) (some MAX_32BIT_TIMESTAMP)),
        lchars ("$2\r\nOK\r\n")) ∧
    storeSet db (.str k) (ValueItem.mk (.str v) (some MAX_32BIT_TIMESTAMP)) (.str k) =
      some (ValueItem.mk (.str v) (some MAX_32BIT_TIMESTAMP)) ∧
    handle_get (.list [g0, .str k])
        (storeSet db (.str k) (ValueItem.mk (.str v) (some MAX_32BIT_TIMESTAMP))) t =
      .ok (storeDel (storeSet db (.str k) (ValueItem.mk (.str v) (some MAX_32BIT_TIMESTAMP)))
          (.str k), lchars ("$-1\r\n")) ∧
    storeDel (storeSet db (.str k) (ValueItem.mk (.str v) (some MAX_32BIT_TIMESTAMP)))
        (.str k) (.str k) = Option.none :=
  ⟨rfl, handle_set_noPx c0 k v rs db t0 raw, storeSet_get_self db k _,
    handle_get_expired g0 k _ t MAX_32BIT_TIMESTAMP (.str v) (storeSet_get_self db k _) ht,
    storeDel_get_self _ k⟩

/-- Claim C10 witness: the sentinel-expiry theorem applied to concrete key k,
value v, an empty store and the timestamp 2147483647000. -/
theorem C10_sentinel_expiry_witness :
    MAX_32BIT_TIMESTAMP ≤ 2147483647000 ∧
    (MAX_32BIT_TIMESTAMP = (2 ^ 31 - 1) * 1000 ∧
      (handle_set (.list [.str (lchars ("SET")), .str (lchars ("k")), .str (lchars ("v"))]) []
          emptyStore 0 []).2 =
        .ok (storeSet emptyStore (.str (lchars ("k")))
            (ValueItem.mk (.str (lchars ("v"))) (some MAX_32BIT_TIMESTAMP)),
          lchars ("$2\r\nOK\r\n")) ∧
      storeSet emptyStore (.str (lchars ("k")))
          (ValueItem.mk (.str (lchars ("v"))) (some MAX_32BIT_TIMESTAMP)) (.str (lchars ("k"))) =
        some (ValueItem.mk (.str (lchars ("v"))) (some MAX_32BIT_TIMESTAMP)) ∧
      handle_get (.list [.str (lchars ("GET")), .str (lchars ("k"))])
          (storeSet emptyStore (.str (lchars ("k")))
            (ValueItem.mk (.str (lchars ("v"))) (some MAX_32BIT_TIMESTAMP))) 2147483647000 =
        .ok (storeDel (storeSet emptyStore (.str (lchars ("k")))
              (ValueItem.mk (.str (lchars ("v"))) (some MAX_32BIT_TIMESTAMP)))
            (.str (lchars ("k"))), lchars ("$-1\r\n")) ∧
      storeDel (storeSet emptyStore (.str (lchars ("k")))
            (ValueItem.mk (.str (lchars ("v"))) (some MAX_32BIT_TIMESTAMP)))
          (.str (lchars ("k"))) (.str (lchars ("k"))) = Option.none) :=
  ⟨by decide,
    C10_sentinel_expiry (.str (lchars ("SET"))) (.str (lchars ("GET"))) (lchars ("k"))
      (lchars ("v")) emptyStore [] [] 0 2147483647000 (by decide)⟩
